import Mathlib

/-!
Verification of the drawio-mcp-server core: the Draw.io diagram validator
and repairer (`validator.py`), the diff-based editing tools
(`tools/diff_tools.py`) and the web client surface (`web_client.py`).

Documents are XML texts; `xml.etree.ElementTree` parse results are modelled
by the `XmlElem` tree below; `ET.fromstring` either raises `ParseError`
(modelled as `none`) or returns the root element (`some root`).
-/

set_option maxHeartbeats 1000000

/-- A parsed XML element: tag name, attribute list and child elements, as
produced by `xml.etree.ElementTree.fromstring`. Text content is not modelled
because the validator never reads it. -/
inductive XmlElem where
  | mk (tag : String) (attrs : List (String × String)) (children : List XmlElem)

/-- The element's tag name (`elem.tag` in ElementTree). -/
def XmlElem.tag : XmlElem → String
  | .mk t _ _ => t

/-- The element's attribute list (`elem.attrib`). -/
def XmlElem.attrsOf : XmlElem → List (String × String)
  | .mk _ a _ => a

/-- The element's direct children (iteration over the element). -/
def XmlElem.children : XmlElem → List XmlElem
  | .mk _ _ c => c

/-- `elem.get(name)`: the value of attribute `name`, or `None` if absent. -/
def XmlElem.attr (e : XmlElem) (name : String) : Option String :=
  (e.attrsOf.find? fun p => p.1 == name).map Prod.snd

/-- `elem.findall(tag)`: the direct children with the given tag. -/
def XmlElem.findallTag (e : XmlElem) (t : String) : List XmlElem :=
  e.children.filter fun c => c.tag == t

/-- `elem.find(tag)`: the first direct child with the given tag, if any. -/
def XmlElem.findTag (e : XmlElem) (t : String) : Option XmlElem :=
  e.children.find? fun c => c.tag == t

mutual
/-- `elem.iter(tag)`: all elements of the subtree rooted at `e` (the element
itself included) whose tag is `t`, in document (preorder) order. -/
def iterTag (t : String) : XmlElem → List XmlElem
  | .mk tag attrs children =>
    (if tag = t then [XmlElem.mk tag attrs children] else []) ++ iterTagF t children

/-- `iterTag` mapped over a forest of elements, results concatenated. -/
def iterTagF (t : String) : List XmlElem → List XmlElem
  | [] => []
  | c :: cs => iterTag t c ++ iterTagF t cs
end

/-- `ValidationLevel` from `validator.py`: severity of a finding. -/
inductive ValidationLevel where
  | error
  | warning
  | info
deriving DecidableEq

/-- `ValidationResult` from `validator.py`: one finding of the validator. -/
structure ValidationResult where
  valid : Bool
  level : ValidationLevel
  message : String
  location : Option String
deriving DecidableEq

/-- The single finding produced by `_check_xml_syntax` when `ET.fromstring`
raises; the Python message also embeds the parser's own error text, which is
not modelled. -/
def xmlSyntaxFinding : ValidationResult :=
  ⟨false, .error, "XML 語法錯誤", some "xml_syntax"⟩

/-- Finding of `_check_root_structure` when the root tag is not `root`. -/
def rootElementFinding (tg : String) : ValidationResult :=
  ⟨false, .error, s!"根元素應該是 root，但得到 {tg}", some "root_element"⟩

/-- Finding of `_check_root_structure` when no `mxCell` has `id="0"`. -/
def missingCell0Finding : ValidationResult :=
  ⟨false, .error, "缺少 mxCell id=0（這是 Draw.io 的必要元素）", some "mxCell_0"⟩

/-- Finding of `_check_root_structure` when no `mxCell` has `id="1"`. -/
def missingCell1Finding : ValidationResult :=
  ⟨false, .error, "缺少 mxCell id=1（這是 Draw.io 的 parent 元素）", some "mxCell_1"⟩

/-- Finding of `_check_mxfile_structure` when the root tag is not `mxfile`. -/
def mxfileElementFinding (tg : String) : ValidationResult :=
  ⟨false, .error, s!"根元素應該是 mxfile，但得到 {tg}", some "mxfile_element"⟩

/-- Finding of `_check_mxfile_structure` when `<diagram>` is missing. -/
def diagramElementFinding : ValidationResult :=
  ⟨false, .error, "缺少 diagram 元素", some "diagram_element"⟩

/-- Finding of `_check_mxfile_structure` when `<mxGraphModel>` is missing. -/
def graphModelElementFinding : ValidationResult :=
  ⟨false, .error, "缺少 mxGraphModel 元素", some "mxGraphModel_element"⟩

/-- Finding of `_check_id_uniqueness` for a duplicated id. -/
def dupIdFinding (s : String) : ValidationResult :=
  ⟨false, .error, s!"重複的 ID: {s}", some ("mxCell_" ++ s)⟩

/-- `DiagramValidator._check_root_structure`: the root element must be
`<root>` and must contain direct `mxCell` children with ids `"0"` and `"1"`. -/
def checkRootStructure (root : XmlElem) : List ValidationResult :=
  if root.tag ≠ "root" then [rootElementFinding root.tag]
  else
    let ids := (root.findallTag "mxCell").map fun c => c.attr "id"
    (if some "0" ∈ ids then [] else [missingCell0Finding]) ++
    (if some "1" ∈ ids then [] else [missingCell1Finding])

/-- `DiagramValidator._check_mxfile_structure`: the root element must be
`<mxfile>`, holding a `<diagram>` which holds an `<mxGraphModel>`. -/
def checkMxfileStructure (root : XmlElem) : List ValidationResult :=
  if root.tag ≠ "mxfile" then [mxfileElementFinding root.tag]
  else
    match root.findTag "diagram" with
    | none => [diagramElementFinding]
    | some diagram =>
      match diagram.findTag "mxGraphModel" with
      | none => [graphModelElementFinding]
      | some _ => []

/-- The findings `DiagramValidator._check_mxcell_elements` produces for one
`mxCell`: cells `"0"`/`"1"` are skipped; a vertex without `parent` and a
vertex without `mxGeometry` each yield a warning. -/
def cellFindings (cell : XmlElem) : List ValidationResult :=
  let cid := (cell.attr "id").getD "unknown"
  if cid = "0" ∨ cid = "1" then []
  else
    (if (cell.attr "parent").isNone && (cell.attr "vertex" == some "1") then
      [⟨true, .warning, s!"mxCell id={cid} 缺少 parent 屬性", some ("mxCell_" ++ cid)⟩]
    else []) ++
    (if (cell.attr "vertex" == some "1") && (cell.findTag "mxGeometry").isNone then
      [⟨true, .warning, s!"頂點 mxCell id={cid} 缺少 mxGeometry", some ("mxCell_" ++ cid)⟩]
    else [])

/-- `DiagramValidator._check_mxcell_elements` over the whole document. -/
def checkMxcellElements (root : XmlElem) : List ValidationResult :=
  (iterTag "mxCell" root).flatMap cellFindings

/-- The loop body of `DiagramValidator._check_id_uniqueness`: walk the cells
keeping the list `seen` of ids encountered so far; a falsy id (`None` or the
empty string) is skipped entirely; a truthy id already seen yields an error,
and is then recorded again. -/
def dupScan : List XmlElem → List String → List ValidationResult
  | [], _ => []
  | c :: cs, seen =>
    match c.attr "id" with
    | none => dupScan cs seen
    | some s =>
      if s = "" then dupScan cs seen
      else (if s ∈ seen then [dupIdFinding s] else []) ++ dupScan cs (seen ++ [s])

/-- `DiagramValidator._check_id_uniqueness` over the whole document. -/
def checkIdUniqueness (root : XmlElem) : List ValidationResult :=
  dupScan (iterTag "mxCell" root) []

/-- The findings `DiagramValidator._check_styles` produces for one `mxCell`:
cells `"0"`/`"1"` are skipped; a style with an odd number of double quotes
yields a warning. -/
def styleFindings (cell : XmlElem) : List ValidationResult :=
  let cid := (cell.attr "id").getD "unknown"
  let style := (cell.attr "style").getD ""
  if cid = "0" ∨ cid = "1" then []
  else if style.data.count '"' % 2 ≠ 0 then
    [⟨true, .warning, s!"mxCell id={cid} 的 style 可能有未閉合的引號",
      some ("mxCell_" ++ cid ++ "_style")⟩]
  else []

/-- `DiagramValidator._check_styles` over the whole document. -/
def checkStyles (root : XmlElem) : List ValidationResult :=
  (iterTag "mxCell" root).flatMap styleFindings

/-- `DiagramValidator.validate(xml, is_root_only)`. The argument is the
`ET.fromstring` parse of the text (`none` when parsing raises): on a parse
failure only the syntax finding is reported and no further check runs;
otherwise the structure, element, id-uniqueness and style checks run in
order, and the document is valid iff no finding has level `ERROR`. -/
def validate (doc : Option XmlElem) (rootOnly : Bool) : Bool × List ValidationResult :=
  match doc with
  | none => (false, [xmlSyntaxFinding])
  | some root =>
    let rs :=
      (if rootOnly then checkRootStructure root else checkMxfileStructure root) ++
      checkMxcellElements root ++ checkIdUniqueness root ++ checkStyles root
    (!(rs.any fun r => r.level == ValidationLevel.error), rs)

/-- A document text, represented by the observations `validate_and_fix`
makes of it: its `ET.fromstring` parse, whether `xml.strip()` starts with
the literal `<root>`, whether the substring `<mxCell` occurs, and — for the
wrapping repair — the list of elements the text denotes when read as XML
element content (`none` when the text is not well-formed element content,
in which case wrapping it in `<root>` tags still yields an unparsable
document). -/
structure DocText where
  parse : Option XmlElem
  startsWithRootTag : Bool
  hasMxCellToken : Bool
  fragments : Option (List XmlElem)

/-- The reserved root cell `<mxCell id="0"/>` synthesized by the repair. -/
def reservedCell0 : XmlElem := .mk "mxCell" [("id", "0")] []

/-- The reserved layer cell `<mxCell id="1" parent="0"/>` synthesized by the
repair. -/
def reservedCell1 : XmlElem := .mk "mxCell" [("id", "1"), ("parent", "0")] []

/-- The repaired text built by `validate_and_fix`:
`<root>␣<mxCell id="0"/>␣<mxCell id="1" parent="0"/>␣{original}␣</root>`.
It starts with `<root>`, still contains `<mxCell`, and parses exactly when
the original text was well-formed element content. -/
def wrapText (t : DocText) : DocText :=
  ⟨t.fragments.map fun fs => .mk "root" [] (reservedCell0 :: reservedCell1 :: fs),
   true,
   true,
   t.fragments.map fun fs => [XmlElem.mk "root" [] (reservedCell0 :: reservedCell1 :: fs)]⟩

/-- `validate_and_fix(xml)` from `validator.py`: validate the text (as a
full `mxfile` document); if valid return it unchanged; otherwise, when the
stripped text does not start with `<root>` but contains `<mxCell`, wrap it
in a synthesized root/layer wrapper (the one and only fix attempted);
otherwise return the text unchanged with `wasRepaired = false`. The
re-validation the Python performs on the fixed text is discarded. -/
def validate_and_fix (t : DocText) : DocText × Bool × String :=
  let v := validate t.parse false
  if v.1 then (t, false, "XML 格式正確")
  else if !t.startsWithRootTag && t.hasMxCellToken then
    (wrapText t, true, "添加了 root 元素和基礎 mxCell")
  else (t, false, "無法自動修復")

/-- The fields of an `add_node` operation dict that `_generate_add_node_xml`
reads (`op.get(...)`); `none` models an absent key. Geometry numbers are
modelled as integers; their values play no role in id assignment. -/
structure AddNodeDict where
  node_type : Option String
  value : Option String
  position : Option (Int × Int)
  size : Option (Int × Int)
  style : Option String
  id : Option String
deriving DecidableEq

/-- The fields of an `add_edge` operation dict that `_generate_add_edge_xml`
reads. -/
structure AddEdgeDict where
  source : Option String
  target : Option String
  value : Option String
  style : Option String
  id : Option String
deriving DecidableEq

/-- The `style_map` lookup of `_generate_add_node_xml`, with
`style_map["rectangle"]` as the default for unknown node types. -/
def styleMapGet (node_type : String) : String :=
  if node_type = "rectangle" then
    "rounded=1;whiteSpace=wrap;html=1;fillColor=#dae8fc;strokeColor=#6c8ebf;"
  else if node_type = "ellipse" then
    "ellipse;whiteSpace=wrap;html=1;fillColor=#d5e8d4;strokeColor=#82b366;"
  else if node_type = "rhombus" then
    "rhombus;whiteSpace=wrap;html=1;fillColor=#fff2cc;strokeColor=#d6b656;"
  else if node_type = "cylinder" then
    "shape=cylinder3;whiteSpace=wrap;html=1;fillColor=#e1d5e7;strokeColor=#9673a6;"
  else
    "rounded=1;whiteSpace=wrap;html=1;fillColor=#dae8fc;strokeColor=#6c8ebf;"

/-- A model of Python's built-in string hash as used in
`f"node-\x7bhash(value) % 10000\x7d"`. CPython randomizes the hash seed per
process; the code relies only on the hash being a function of its argument
within one process, which holds for this model and for every other choice of
hash function (the id-generation functions below are therefore parameterized
over the hash as well). -/
def pyHashModel (s : String) : Nat :=
  s.data.foldl (fun a c => a * 131 + c.toNat) 7

/-- `_generate_add_node_xml(op)` from `diff_tools.py`, returning the
`mxCell` element the produced XML text denotes. The id is the explicit
`op["id"]` when present, else `node-` followed by `hash(value) % 10000`. -/
def generateAddNodeXml (pyHash : String → Nat) (op : AddNodeDict) : XmlElem :=
  let node_type := op.node_type.getD "rectangle"
  let value := op.value.getD ""
  let pos := op.position.getD (100, 100)
  let size := op.size.getD (120, 60)
  let node_id := op.id.getD ("node-" ++ toString (pyHash value % 10000))
  let style := match op.style with
    | some s => if s = "" then styleMapGet node_type else s
    | none => styleMapGet node_type
  .mk "mxCell"
    [("id", node_id), ("value", value), ("style", style), ("vertex", "1"), ("parent", "1")]
    [.mk "mxGeometry"
      [("x", toString pos.1), ("y", toString pos.2),
       ("width", toString size.1), ("height", toString size.2), ("as", "geometry")] []]

/-- `_generate_add_edge_xml(op)` from `diff_tools.py`. The id is the explicit
`op["id"]` when present, else `edge-` followed by `hash(source + target) %
10000`. -/
def generateAddEdgeXml (pyHash : String → Nat) (op : AddEdgeDict) : XmlElem :=
  let source := op.source.getD ""
  let target := op.target.getD ""
  let value := op.value.getD ""
  let edge_id := op.id.getD ("edge-" ++ toString (pyHash (source ++ target) % 10000))
  let style := match op.style with
    | some s => if s = "" then
        "edgeStyle=orthogonalEdgeStyle;rounded=1;orthogonalLoop=1;jettySize=auto;html=1;endArrow=classic;strokeWidth=2;"
      else s
    | none =>
      "edgeStyle=orthogonalEdgeStyle;rounded=1;orthogonalLoop=1;jettySize=auto;html=1;endArrow=classic;strokeWidth=2;"
  .mk "mxCell"
    [("id", edge_id), ("value", value), ("style", style), ("edge", "1"), ("parent", "1"),
     ("source", source), ("target", target)]
    [.mk "mxGeometry" [("relative", "1"), ("as", "geometry")] []]

/-- The id attribute of a generated cell. -/
def cellIdOf (e : XmlElem) : Option String := e.attr "id"

/-- The ids assigned to a list of `add_node` operations. -/
def generatedNodeIds (pyHash : String → Nat) (ops : List AddNodeDict) : List (Option String) :=
  ops.map fun op => cellIdOf (generateAddNodeXml pyHash op)

/-- The `"result"` sub-dict of a poll response in
`apply_diagram_changes_impl`: `result.get("result", \x7b\x7d)` then
`.get("applied", len(operations))` and `.get("conflicts", [])`. -/
structure ApplyResultDict where
  applied : Option Nat
  conflicts : Option (List (Option String))
deriving DecidableEq

/-- A response dict of `web_client.get_apply_result`: the fields the polling
loop reads (`"error"`, `"pending"`, `"success"`, `"result"`). -/
structure PollReply where
  error : Option String
  pending : Bool
  success : Bool
  result : Option ApplyResultDict
deriving DecidableEq

instance : Inhabited PollReply := ⟨⟨none, false, false, none⟩⟩

/-- The surface collaborator as seen by the diff tools: each field models one
`await web_client.<method>(...)` call; `Except.error` models the call raising
a Python exception (in particular the `AttributeError` raised when the
`WebClient` class defines no such method). `getApplyResult` is indexed by the
poll attempt number. -/
structure SurfaceClient where
  applyOperations : Except String (Option String)
  getApplyResult : Nat → Except String PollReply
  getDiagramChanges : Except String (Option String)
  getDiagramContent : Except String (Option String × String)
  syncDiffState : String → Except String (Option String)

/-- Outcome of a diff-tool entry point: which return statement of the Python
function produced the returned string. `errorString` is the
`except Exception` branch; `responseError` a `"error" in response` branch;
the remaining constructors are the normal-path returns. -/
inductive ToolOutcome where
  | errorString (msg : String)
  | responseError (msg : String)
  | noOperations
  | applied (n : Nat) (conflicts : List (Option String))
  | timedOut
  | report (msg : String)
  | synced
deriving DecidableEq

/-- One iteration body of the polling loop of `apply_diagram_changes_impl`:
classify the poll reply. An `"error"` value other than
`"No matching operation"` returns the failure message; otherwise a pending
reply continues, a success reply returns the applied/conflict summary, and
any other reply continues. -/
inductive PollStep where
  | getFailed (e : String)
  | finish (applied : Nat) (conflicts : List (Option String))
  | again
deriving DecidableEq

/-- The pending/success checks shared by both branches of the error check. -/
def pollCont (numOps : Nat) (r : PollReply) : PollStep :=
  if r.pending then .again
  else if r.success then
    .finish ((r.result.bind ApplyResultDict.applied).getD numOps)
      ((r.result.bind ApplyResultDict.conflicts).getD [])
  else .again

/-- Classification of one poll reply, following the `if` chain of the loop
body in `apply_diagram_changes_impl`. -/
def pollStep (numOps : Nat) (r : PollReply) : PollStep :=
  match r.error with
  | some e => if e ≠ "No matching operation" then .getFailed e else pollCont numOps r
  | none => pollCont numOps r

/-- The `for _ in range(20)` polling loop of `apply_diagram_changes_impl`:
each iteration sleeps 0.5 s, calls `get_apply_result` once and classifies the
reply; when the fuel is exhausted the advisory timeout message is returned.
Returns the outcome together with the number of poll attempts performed
(each preceded by exactly one 0.5-second sleep). -/
def pollLoop (client : SurfaceClient) (numOps : Nat) : Nat → Nat → ToolOutcome × Nat
  | _, 0 => (.timedOut, 0)
  | i, fuel + 1 =>
    match client.getApplyResult i with
    | .error e => (.errorString s!"應用變更時發生錯誤: {e}", 1)
    | .ok r =>
      match pollStep numOps r with
      | .getFailed e => (.responseError s!"取得結果失敗: {e}", 1)
      | .finish a c => (.applied a c, 1)
      | .again =>
        let p := pollLoop client numOps (i + 1) fuel
        (p.1, p.2 + 1)

/-- `apply_diagram_changes_impl(operations, preserve_user_changes)` from
`diff_tools.py`. An empty operation list returns immediately; otherwise the
batch is sent via `web_client.apply_diagram_operations` (a raising call ends
in the `except` branch, an error response in the failure branch) and the
result is polled at most 20 times at 0.5-second intervals. The element type
of `operations` is abstract because the function never inspects the
individual operations, only forwards them and takes `len(operations)`. -/
def apply_diagram_changes_impl {α : Type} (client : SurfaceClient)
    (ops : List α) (_preserve_user_changes : Bool) : ToolOutcome × Nat :=
  if ops.isEmpty then (.noOperations, 0)
  else
    match client.applyOperations with
    | .error e => (.errorString s!"應用變更時發生錯誤: {e}", 0)
    | .ok resp =>
      match resp with
      | some e => (.responseError s!"應用變更失敗: {e}", 0)
      | none => pollLoop client ops.length 0 20

/-- `get_diagram_changes_impl` from `diff_tools.py`: fetch the change set
from the surface; a raising call ends in the `except` branch, an error
response in the failure branch; otherwise a report is formatted (the report
body, never reached with the shipped `WebClient`, is abbreviated to the
response summary). The surface response is modelled as its `"error"` field
plus the formatted summary. -/
def get_diagram_changes_impl (client : SurfaceClient) : ToolOutcome :=
  match client.getDiagramChanges with
  | .error e => .errorString s!"取得變更時發生錯誤: {e}"
  | .ok resp =>
    match resp with
    | some e => .responseError s!"無法取得變更資訊: {e}"
    | none => .report "用戶變更摘要"

/-- `sync_diagram_state_impl` from `diff_tools.py`: read the current diagram
content via `web_client.get_diagram_content`, then set it as the new baseline
via `web_client.sync_diff_state`. Raising calls end in the `except` branch;
error responses in the corresponding failure branches; only a successful
`sync_diff_state` response reaches the `synced` outcome (the baseline
replacement). The content response is modelled as its `"error"` field and its
`"xml"` field. -/
def sync_diagram_state_impl (client : SurfaceClient) : ToolOutcome :=
  match client.getDiagramContent with
  | .error e => .errorString s!"同步時發生錯誤: {e}"
  | .ok content =>
    match content.1 with
    | some e => .responseError s!"無法取得圖表內容: {e}"
    | none =>
      match client.syncDiffState content.2 with
      | .error e => .errorString s!"同步時發生錯誤: {e}"
      | .ok resp =>
        match resp with
        | some e => .responseError s!"同步失敗: {e}"
        | none => .synced

/-- The methods the `WebClient` class in `web_client.py` defines (its
`def` statements). Accessing any other attribute on the `web_client`
instance raises `AttributeError`. -/
def webClientMethods : List String :=
  ["__init__", "_get_port", "is_port_in_use", "is_running", "start_web_server",
   "stop_web_server", "_open_browser", "send", "get_tabs", "tab_action",
   "get_diagram_content"]

/-- Attribute lookup on the `web_client` instance: raises `AttributeError`
for any name that is not a method of the `WebClient` class. -/
def webClientGetAttr (name : String) : Except String Unit :=
  if name ∈ webClientMethods then .ok ()
  else .error s!"AttributeError: WebClient object has no attribute {name}"

/-- The shipped `web_client` instance as a `SurfaceClient`: the methods the
diff tools call (`apply_diagram_operations`, `get_apply_result`,
`get_diagram_changes`, `sync_diff_state`) are not defined by `WebClient`, so
each such call is an attribute lookup that raises; `get_diagram_content` is
defined and its (network-dependent) response is the parameter `net`. The
`Except.map` default payloads are never produced because the lookups fail. -/
def realWebClient (net : Option String × String) : SurfaceClient :=
  ⟨(webClientGetAttr "apply_diagram_operations").map fun _ => none,
   fun _ => (webClientGetAttr "get_apply_result").map fun _ => default,
   (webClientGetAttr "get_diagram_changes").map fun _ => none,
   .ok net,
   fun _ => (webClientGetAttr "sync_diff_state").map fun _ => none⟩

/-- The id of a cell as the uniqueness check sees it: `None` and the empty
string are falsy in Python and are skipped. -/
def truthyId (c : XmlElem) : Option String :=
  match c.attr "id" with
  | none => none
  | some s => if s = "" then none else some s

/-- The ids the uniqueness check records, in traversal order. -/
def truthyIds (l : List XmlElem) : List String := l.filterMap truthyId

theorem mem_ite_singleton {P : Prop} [Decidable P] {w r : ValidationResult}
    (h : r ∈ if P then [w] else []) : r = w := by
  split at h
  · exact List.mem_singleton.mp h
  · simp at h

theorem cellFindings_warning (c : XmlElem) :
    ∀ r ∈ cellFindings c, r.level = ValidationLevel.warning := by
  intro r h
  simp only [cellFindings] at h
  split at h
  · simp at h
  · rcases List.mem_append.mp h with h' | h' <;> rw [mem_ite_singleton h']

theorem styleFindings_warning (c : XmlElem) :
    ∀ r ∈ styleFindings c, r.level = ValidationLevel.warning := by
  intro r h
  simp only [styleFindings] at h
  split at h
  · simp at h
  · rw [mem_ite_singleton h]

theorem checkMxcellElements_warning (root : XmlElem) :
    ∀ r ∈ checkMxcellElements root, r.level = ValidationLevel.warning := by
  intro r h
  obtain ⟨c, _, hc⟩ := List.mem_flatMap.mp h
  exact cellFindings_warning c r hc

theorem checkStyles_warning (root : XmlElem) :
    ∀ r ∈ checkStyles root, r.level = ValidationLevel.warning := by
  intro r h
  obtain ⟨c, _, hc⟩ := List.mem_flatMap.mp h
  exact styleFindings_warning c r hc

theorem any_error_eq_false {l : List ValidationResult}
    (h : ∀ r ∈ l, r.level = ValidationLevel.warning) :
    (l.any fun r => r.level == ValidationLevel.error) = false := by
  rw [List.any_eq_false]
  intro r hr
  rw [h r hr]
  decide

theorem filter_error_eq_nil {l : List ValidationResult}
    (h : ∀ r ∈ l, r.level = ValidationLevel.warning) :
    (l.filter fun r => r.level == ValidationLevel.error) = [] := by
  rw [List.filter_eq_nil_iff]
  intro r hr
  rw [h r hr]
  decide

theorem dupScan_eq_nil : ∀ (l : List XmlElem) (seen : List String),
    (truthyIds l).Nodup → (∀ s ∈ truthyIds l, s ∉ seen) → dupScan l seen = [] := by
  intro l
  induction l with
  | nil => intro seen _ _; rfl
  | cons c cs ih =>
    intro seen hnd hdisj
    cases hattr : c.attr "id" with
    | none =>
      have hids : truthyIds (c :: cs) = truthyIds cs := by
        simp [truthyIds, List.filterMap_cons, truthyId, hattr]
      rw [hids] at hnd hdisj
      simp only [dupScan, hattr]
      exact ih seen hnd hdisj
    | some s =>
      by_cases hse : s = ""
      · have hids : truthyIds (c :: cs) = truthyIds cs := by
          simp [truthyIds, List.filterMap_cons, truthyId, hattr, hse]
        rw [hids] at hnd hdisj
        simp only [dupScan, hattr, hse, if_pos rfl]
        exact ih seen hnd hdisj
      · have hids : truthyIds (c :: cs) = s :: truthyIds cs := by
          simp [truthyIds, List.filterMap_cons, truthyId, hattr, hse]
        rw [hids] at hnd hdisj
        simp only [dupScan, hattr]
        rw [if_neg hse]
        have hs₁ : s ∉ seen := hdisj s (List.mem_cons_self s _)
        rw [if_neg hs₁, List.nil_append]
        apply ih
        · exact hnd.of_cons
        · intro u hu
          rw [List.mem_append]
          rintro (hu' | hu')
          · exact hdisj u (List.mem_cons_of_mem _ hu) hu'
          · rw [List.mem_singleton] at hu'
            subst hu'
            exact (List.nodup_cons.mp hnd).1 hu

theorem dupFinding_mem_of_seen : ∀ (l : List XmlElem) (seen : List String) (s : String),
    s ∈ truthyIds l → s ∈ seen → dupIdFinding s ∈ dupScan l seen := by
  intro l
  induction l with
  | nil => intro seen s hmem _; simp [truthyIds] at hmem
  | cons c cs ih =>
    intro seen s hmem hseen
    cases hattr : c.attr "id" with
    | none =>
      have hids : truthyIds (c :: cs) = truthyIds cs := by
        simp [truthyIds, List.filterMap_cons, truthyId, hattr]
      rw [hids] at hmem
      simp only [dupScan, hattr]
      exact ih seen s hmem hseen
    | some u =>
      by_cases hue : u = ""
      · have hids : truthyIds (c :: cs) = truthyIds cs := by
          simp [truthyIds, List.filterMap_cons, truthyId, hattr, hue]
        rw [hids] at hmem
        simp only [dupScan, hattr, hue, if_pos rfl]
        exact ih seen s hmem hseen
      · have hids : truthyIds (c :: cs) = u :: truthyIds cs := by
          simp [truthyIds, List.filterMap_cons, truthyId, hattr, hue]
        rw [hids] at hmem
        simp only [dupScan, hattr]
        rw [if_neg hue]
        rcases List.mem_cons.mp hmem with heq | hmem'
        · subst heq
          rw [if_pos hseen]
          exact List.mem_append_left _ (List.mem_singleton.mpr rfl)
        · refine List.mem_append_right _ (ih _ s hmem' ?_)
          exact List.mem_append_left _ hseen

theorem dupFinding_mem_of_count : ∀ (l : List XmlElem) (seen : List String) (s : String),
    2 ≤ (truthyIds l).count s → dupIdFinding s ∈ dupScan l seen := by
  intro l
  induction l with
  | nil => intro seen s h; simp [truthyIds] at h
  | cons c cs ih =>
    intro seen s h
    cases hattr : c.attr "id" with
    | none =>
      have hids : truthyIds (c :: cs) = truthyIds cs := by
        simp [truthyIds, List.filterMap_cons, truthyId, hattr]
      rw [hids] at h
      simp only [dupScan, hattr]
      exact ih seen s h
    | some u =>
      by_cases hue : u = ""
      · have hids : truthyIds (c :: cs) = truthyIds cs := by
          simp [truthyIds, List.filterMap_cons, truthyId, hattr, hue]
        rw [hids] at h
        simp only [dupScan, hattr, hue, if_pos rfl]
        exact ih seen s h
      · have hids : truthyIds (c :: cs) = u :: truthyIds cs := by
          simp [truthyIds, List.filterMap_cons, truthyId, hattr, hue]
        rw [hids] at h
        simp only [dupScan, hattr]
        rw [if_neg hue]
        by_cases hus : u = s
        · subst hus
          rw [List.count_cons_self] at h
          have hmem : u ∈ truthyIds cs := by
            rw [← List.count_pos_iff]
            omega
          refine List.mem_append_right _ ?_
          exact dupFinding_mem_of_seen cs (seen ++ [u]) u hmem
            (List.mem_append_right _ (List.mem_singleton.mpr rfl))
        · rw [List.count_cons_of_ne (fun he => hus he.symm)] at h
          exact List.mem_append_right _ (ih (seen ++ [u]) s h)

/-- C10: For every input string, `validate` terminates and returns a
`(valid, findings)` pair (it is a total function of the parse outcome); when
the string is not well-formed XML (`ET.fromstring` raises, parse = `none`)
it returns `valid = false` with exactly the one Error finding located
`"xml_syntax"`, and none of the structural, element, id-uniqueness or style
checks contribute any finding. -/
theorem c10_validate_unparsable (ro : Bool) :
    validate none ro = (false, [xmlSyntaxFinding]) ∧
    xmlSyntaxFinding.level = ValidationLevel.error ∧
    xmlSyntaxFinding.location = some "xml_syntax" :=
  ⟨rfl, rfl, rfl⟩

/-- C6: For every parsable document, `validate` returns `valid = true` iff
no finding has level Error; and the element checks (vertex missing parent,
vertex missing geometry) and the style check (unbalanced quotes) only ever
produce Warning-level findings, so they never by themselves invalidate. -/
theorem c6_valid_iff_no_error (root : XmlElem) (ro : Bool) :
    ((validate (some root) ro).1 = true ↔
      ∀ r ∈ (validate (some root) ro).2, r.level ≠ ValidationLevel.error) ∧
    (∀ r ∈ checkMxcellElements root, r.level = ValidationLevel.warning) ∧
    (∀ r ∈ checkStyles root, r.level = ValidationLevel.warning) := by
  refine ⟨?_, checkMxcellElements_warning root, checkStyles_warning root⟩
  simp only [validate, Bool.not_eq_true', List.any_eq_false, beq_iff_eq]

/-- C7: For every parsable document in which two Cells carry the same
(nonempty) id — the id occurs at least twice among the ids the uniqueness
check records — `validate` returns `valid = false` and the findings include
an Error located `mxCell_<id>`. -/
theorem c7_duplicate_id_invalid (root : XmlElem) (ro : Bool) (s : String)
    (hc : 2 ≤ (truthyIds (iterTag "mxCell" root)).count s) :
    (validate (some root) ro).1 = false ∧
    ∃ r ∈ (validate (some root) ro).2,
      r.level = ValidationLevel.error ∧ r.location = some ("mxCell_" ++ s) := by
  have hdup : dupIdFinding s ∈ checkIdUniqueness root :=
    dupFinding_mem_of_count _ [] s hc
  constructor
  · simp only [validate, Bool.not_eq_false']
    rw [List.any_eq_true]
    exact ⟨dupIdFinding s,
      List.mem_append_left _ (List.mem_append_right _ hdup), rfl⟩
  · refine ⟨dupIdFinding s, ?_, rfl, rfl⟩
    simp only [validate]
    exact List.mem_append_left _ (List.mem_append_right _ hdup)

/-- A concrete root-only document with two cells that share the id `"a"`. -/
def dupIdRoot : XmlElem :=
  .mk "root" []
    [.mk "mxCell" [("id", "0")] [],
     .mk "mxCell" [("id", "1"), ("parent", "0")] [],
     .mk "mxCell" [("id", "a"), ("vertex", "1"), ("parent", "1")] [],
     .mk "mxCell" [("id", "a"), ("vertex", "1"), ("parent", "1")] []]

theorem c7_duplicate_id_invalid_witness :
    2 ≤ (truthyIds (iterTag "mxCell" dupIdRoot)).count "a" ∧
    ((validate (some dupIdRoot) true).1 = false ∧
      ∃ r ∈ (validate (some dupIdRoot) true).2,
        r.level = ValidationLevel.error ∧ r.location = some ("mxCell_" ++ "a")) :=
  ⟨by decide, c7_duplicate_id_invalid dupIdRoot true "a" (by decide)⟩

/-- C5: Repair (`validate_and_fix`) attempts at most one structural fix and
never loops: every run either returns the input unchanged or returns it
wrapped in the synthesized root/layer wrapper (so it never invents parent
ids, geometry or style values). Moreover, for every text that fails
validation but is not a bare Cell list missing the wrapper — it already
starts with `<root>`, or contains no `<mxCell` — it returns the original
text unchanged with `wasRepaired = false`. -/
theorem c5_repair_at_most_one_fix (t : DocText)
    (hinv : (validate t.parse false).1 = false)
    (hnb : t.startsWithRootTag = true ∨ t.hasMxCellToken = false) :
    validate_and_fix t = (t, false, "無法自動修復") ∧
    ∀ u : DocText, (validate_and_fix u).1 = u ∨ (validate_and_fix u).1 = wrapText u := by
  constructor
  · rcases hnb with h | h <;> simp [validate_and_fix, hinv, h]
  · intro u
    simp only [validate_and_fix]
    split
    · exact Or.inl rfl
    · split
      · exact Or.inr rfl
      · exact Or.inl rfl

/-- A text that already starts with `<root>` but whose document is missing
both reserved cells (so it fails validation). -/
def bareRootText : DocText :=
  ⟨some (.mk "root" [] []), true, false, some [XmlElem.mk "root" [] []]⟩

theorem c5_repair_at_most_one_fix_witness :
    (validate bareRootText.parse false).1 = false ∧
    (bareRootText.startsWithRootTag = true ∨ bareRootText.hasMxCellToken = false) ∧
    (validate_and_fix bareRootText = (bareRootText, false, "無法自動修復") ∧
      ∀ u : DocText, (validate_and_fix u).1 = u ∨ (validate_and_fix u).1 = wrapText u) :=
  ⟨by decide, Or.inl rfl, c5_repair_at_most_one_fix bareRootText (by decide) (Or.inl rfl)⟩

theorem addNode_id_eq (h : String → Nat) (op : AddNodeDict) :
    cellIdOf (generateAddNodeXml h op) =
      some (op.id.getD ("node-" ++ toString (h (op.value.getD "") % 10000))) := rfl

theorem addEdge_id_eq (h : String → Nat) (op : AddEdgeDict) :
    cellIdOf (generateAddEdgeXml h op) =
      some (op.id.getD
        ("edge-" ++ toString (h (op.source.getD "" ++ op.target.getD "") % 10000))) := rfl

theorem node_prefixed_ne (s : String) : ("node-" ++ s) ≠ "0" ∧ ("node-" ++ s) ≠ "1" := by
  constructor
  · intro h
    have h2 := congrArg String.length h
    rw [String.length_append, show ("node-" : String).length = 5 from rfl,
      show ("0" : String).length = 1 from rfl] at h2
    omega
  · intro h
    have h2 := congrArg String.length h
    rw [String.length_append, show ("node-" : String).length = 5 from rfl,
      show ("1" : String).length = 1 from rfl] at h2
    omega

theorem edge_prefixed_ne (s : String) : ("edge-" ++ s) ≠ "0" ∧ ("edge-" ++ s) ≠ "1" := by
  constructor
  · intro h
    have h2 := congrArg String.length h
    rw [String.length_append, show ("edge-" : String).length = 5 from rfl,
      show ("0" : String).length = 1 from rfl] at h2
    omega
  · intro h
    have h2 := congrArg String.length h
    rw [String.length_append, show ("edge-" : String).length = 5 from rfl,
      show ("1" : String).length = 1 from rfl] at h2
    omega

/-- C1 (amended): applying `add_node` operations with no explicit id yields
ids deterministically derived from each operation's `value` — the literal
`node-` followed by `hash(value) % 10000` — so none is ever `"0"` or `"1"`,
but operations with equal `value` always receive the same id: the ids are
not drawn from a Document-scoped monotonic counter and need not be
distinct. -/
theorem c1_addNode_ids_value_determined (h : String → Nat) (ops : List AddNodeDict)
    (hid : ∀ op ∈ ops, op.id = none) :
    (∀ op ∈ ops, cellIdOf (generateAddNodeXml h op) =
        some ("node-" ++ toString (h (op.value.getD "") % 10000)) ∧
      cellIdOf (generateAddNodeXml h op) ≠ some "0" ∧
      cellIdOf (generateAddNodeXml h op) ≠ some "1") ∧
    (∀ op1 ∈ ops, ∀ op2 ∈ ops, op1.value = op2.value →
      cellIdOf (generateAddNodeXml h op1) = cellIdOf (generateAddNodeXml h op2)) := by
  constructor
  · intro op hop
    have hide := hid op hop
    have hbase : cellIdOf (generateAddNodeXml h op) =
        some ("node-" ++ toString (h (op.value.getD "") % 10000)) := by
      rw [addNode_id_eq, hide]
      rfl
    refine ⟨hbase, ?_, ?_⟩
    · rw [hbase]
      intro hcontra
      exact (node_prefixed_ne _).1 (Option.some.inj hcontra)
    · rw [hbase]
      intro hcontra
      exact (node_prefixed_ne _).2 (Option.some.inj hcontra)
  · intro op1 h1 op2 h2 hv
    simp only [addNode_id_eq]
    rw [hid op1 h1, hid op2 h2, hv]

/-- Two distinct `add_node` operations with no explicit id and the same
value `"A"` (they differ in position). -/
def addA1 : AddNodeDict := ⟨none, some "A", some (100, 100), none, none, none⟩

/-- Second `add_node` operation with value `"A"` at another position. -/
def addA2 : AddNodeDict := ⟨none, some "A", some (300, 100), none, none, none⟩

/-- C1 counterexample: two different `add_node` operations with no explicit
id (N = 2) generate the same id, because the id is a pure function of the
operation's `value` — the counter-based distinctness the claim states fails. -/
theorem c1_counterexample :
    (addA1 ≠ addA2 ∧ addA1.id = none ∧ addA2.id = none) ∧
    ¬ (generatedNodeIds pyHashModel [addA1, addA2]).Nodup := by decide

theorem c1_addNode_ids_value_determined_witness :
    (∀ op ∈ [addA1, addA2], op.id = none) ∧
    ((∀ op ∈ [addA1, addA2], cellIdOf (generateAddNodeXml pyHashModel op) =
        some ("node-" ++ toString (pyHashModel (op.value.getD "") % 10000)) ∧
      cellIdOf (generateAddNodeXml pyHashModel op) ≠ some "0" ∧
      cellIdOf (generateAddNodeXml pyHashModel op) ≠ some "1") ∧
    (∀ op1 ∈ [addA1, addA2], ∀ op2 ∈ [addA1, addA2], op1.value = op2.value →
      cellIdOf (generateAddNodeXml pyHashModel op1) =
        cellIdOf (generateAddNodeXml pyHashModel op2))) :=
  ⟨by decide, c1_addNode_ids_value_determined pyHashModel [addA1, addA2] (by decide)⟩

/-- An `add_node` operation that explicitly supplies the reserved id `"0"`. -/
def addWithReservedId : AddNodeDict := ⟨none, some "Title", none, none, none, some "0"⟩

/-- C2 counterexample: an Add operation supplying the explicit id `"0"`
produces a Cell that carries the reserved id `"0"` — the generator uses any
explicit id verbatim, with no reserved-id check. -/
theorem c2_counterexample :
    addWithReservedId.id = some "0" ∧
    cellIdOf (generateAddNodeXml pyHashModel addWithReservedId) = some "0" := by decide

/-- C2 (amended): when the id is auto-generated (no explicit id), the id
carried by the Cell created by an Add operation is never `"0"` or `"1"`
(node ids start with `node-`, edge ids with `edge-`); but when the operation
supplies an explicit id, that id is carried verbatim, `"0"`/`"1"` included. -/
theorem c2_add_reserved_ids (h : String → Nat) (nop : AddNodeDict) (eop : AddEdgeDict)
    (hn : nop.id = none) (he : eop.id = none) :
    (cellIdOf (generateAddNodeXml h nop) ≠ some "0" ∧
      cellIdOf (generateAddNodeXml h nop) ≠ some "1") ∧
    (cellIdOf (generateAddEdgeXml h eop) ≠ some "0" ∧
      cellIdOf (generateAddEdgeXml h eop) ≠ some "1") ∧
    (∀ op : AddNodeDict, ∀ s, op.id = some s →
      cellIdOf (generateAddNodeXml h op) = some s) ∧
    (∀ op : AddEdgeDict, ∀ s, op.id = some s →
      cellIdOf (generateAddEdgeXml h op) = some s) := by
  refine ⟨⟨?_, ?_⟩, ⟨?_, ?_⟩, ?_, ?_⟩
  · rw [addNode_id_eq, hn]
    intro hcontra
    exact (node_prefixed_ne _).1 (Option.some.inj hcontra)
  · rw [addNode_id_eq, hn]
    intro hcontra
    exact (node_prefixed_ne _).2 (Option.some.inj hcontra)
  · rw [addEdge_id_eq, he]
    intro hcontra
    exact (edge_prefixed_ne _).1 (Option.some.inj hcontra)
  · rw [addEdge_id_eq, he]
    intro hcontra
    exact (edge_prefixed_ne _).2 (Option.some.inj hcontra)
  · intro op s hs
    rw [addNode_id_eq, hs]
    rfl
  · intro op s hs
    rw [addEdge_id_eq, hs]
    rfl

/-- An `add_edge` operation with no explicit id. -/
def edgeAB : AddEdgeDict := ⟨some "a", some "b", none, none, none⟩

theorem c2_add_reserved_ids_witness :
    (addA1.id = none ∧ edgeAB.id = none) ∧
    ((cellIdOf (generateAddNodeXml pyHashModel addA1) ≠ some "0" ∧
      cellIdOf (generateAddNodeXml pyHashModel addA1) ≠ some "1") ∧
    (cellIdOf (generateAddEdgeXml pyHashModel edgeAB) ≠ some "0" ∧
      cellIdOf (generateAddEdgeXml pyHashModel edgeAB) ≠ some "1") ∧
    (∀ op : AddNodeDict, ∀ s, op.id = some s →
      cellIdOf (generateAddNodeXml pyHashModel op) = some s) ∧
    (∀ op : AddEdgeDict, ∀ s, op.id = some s →
      cellIdOf (generateAddEdgeXml pyHashModel op) = some s)) :=
  ⟨⟨rfl, rfl⟩, c2_add_reserved_ids pyHashModel addA1 edgeAB rfl rfl⟩

/-- C4: For every parsable root-only document text containing a Cell with id
`"0"` but none with id `"1"` and no other defect (root tag is `root`, ids
are unique), `validate(text, rootOnly)` is invalid with exactly one
Error-level finding, located `"mxCell_1"`; and `repair` on such a text — it
starts with `<root>` — returns it unchanged with `wasRepaired = false`. -/
theorem c4_missing_layer_cell (t : DocText) (root : XmlElem)
    (hp : t.parse = some root)
    (htag : root.tag = "root")
    (hsw : t.startsWithRootTag = true)
    (h0 : some "0" ∈ (root.findallTag "mxCell").map fun c => c.attr "id")
    (h1 : some "1" ∉ (root.findallTag "mxCell").map fun c => c.attr "id")
    (hnd : (truthyIds (iterTag "mxCell" root)).Nodup) :
    (validate t.parse true).1 = false ∧
    ((validate t.parse true).2.filter fun r => r.level == ValidationLevel.error) =
      [missingCell1Finding] ∧
    validate_and_fix t = (t, false, "無法自動修復") := by
  have hroot : checkRootStructure root = [missingCell1Finding] := by
    simp only [checkRootStructure]
    rw [if_neg (by rw [htag]; simp), if_pos h0, if_neg h1]
    rfl
  have hdup : checkIdUniqueness root = [] :=
    dupScan_eq_nil _ [] hnd (fun s _ => List.not_mem_nil s)
  have hrs : validate (some root) true =
      (!((checkRootStructure root ++ checkMxcellElements root ++
          checkIdUniqueness root ++ checkStyles root).any
          fun r => r.level == ValidationLevel.error),
        checkRootStructure root ++ checkMxcellElements root ++
          checkIdUniqueness root ++ checkStyles root) := rfl
  have hm1 : missingCell1Finding ∈ checkRootStructure root := by
    rw [hroot]
    exact List.mem_singleton.mpr rfl
  refine ⟨?_, ?_, ?_⟩
  · rw [hp, hrs]
    rw [Bool.not_eq_false', List.any_eq_true]
    exact ⟨missingCell1Finding,
      List.mem_append_left _ (List.mem_append_left _ (List.mem_append_left _ hm1)), rfl⟩
  · rw [hp, hrs]
    show ((checkRootStructure root ++ checkMxcellElements root ++
      checkIdUniqueness root ++ checkStyles root).filter
      fun r => r.level == ValidationLevel.error) = [missingCell1Finding]
    rw [List.filter_append, List.filter_append, List.filter_append, hroot, hdup,
      filter_error_eq_nil (checkMxcellElements_warning root),
      filter_error_eq_nil (checkStyles_warning root)]
    rfl
  · have hmxf : checkMxfileStructure root = [mxfileElementFinding root.tag] := by
      simp only [checkMxfileStructure]
      rw [if_pos (by rw [htag]; simp)]
    have hinv : (validate t.parse false).1 = false := by
      rw [hp]
      show (!((checkMxfileStructure root ++ checkMxcellElements root ++
        checkIdUniqueness root ++ checkStyles root).any
        fun r => r.level == ValidationLevel.error)) = false
      rw [Bool.not_eq_false', List.any_eq_true]
      refine ⟨mxfileElementFinding root.tag, ?_, rfl⟩
      refine List.mem_append_left _ (List.mem_append_left _ (List.mem_append_left _ ?_))
      rw [hmxf]
      exact List.mem_singleton.mpr rfl
    simp [validate_and_fix, hinv, hsw]

/-- A concrete root-only document element with cell `"0"` but no cell `"1"`. -/
def rootMissingLayerElem : XmlElem :=
  .mk "root" []
    [.mk "mxCell" [("id", "0")] [],
     .mk "mxCell" [("id", "2"), ("vertex", "1"), ("parent", "1")]
       [.mk "mxGeometry" [("x", "0"), ("y", "0")] []]]

/-- The text whose parse is `rootMissingLayerElem`; it starts with `<root>`. -/
def rootMissingLayer : DocText :=
  ⟨some rootMissingLayerElem, true, true, some [rootMissingLayerElem]⟩

theorem c4_missing_layer_cell_witness :
    (rootMissingLayer.parse = some rootMissingLayerElem ∧
      rootMissingLayerElem.tag = "root" ∧
      rootMissingLayer.startsWithRootTag = true ∧
      some "0" ∈ (rootMissingLayerElem.findallTag "mxCell").map (fun c => c.attr "id") ∧
      some "1" ∉ (rootMissingLayerElem.findallTag "mxCell").map (fun c => c.attr "id") ∧
      (truthyIds (iterTag "mxCell" rootMissingLayerElem)).Nodup) ∧
    ((validate rootMissingLayer.parse true).1 = false ∧
      ((validate rootMissingLayer.parse true).2.filter
        fun r => r.level == ValidationLevel.error) = [missingCell1Finding] ∧
      validate_and_fix rootMissingLayer = (rootMissingLayer, false, "無法自動修復")) :=
  ⟨⟨rfl, rfl, rfl, by decide, by decide, by decide⟩,
    c4_missing_layer_cell rootMissingLayer rootMissingLayerElem rfl rfl rfl
      (by decide) (by decide) (by decide)⟩

/-- C3: For every document text whose only defect is that its (otherwise
well-formed) Cells lack the root/layer wrapper — the text is well-formed
element content whose ids are unique and avoid the reserved `"0"`/`"1"`, it
does not start with `<root>`, contains `<mxCell`, and parses either not at
all (several top-level fragments) or to a single `mxCell` element — repair
wraps it, and validating repair's output as a root-only document yields
`valid = true`. -/
theorem c3_repair_wrapper_validates (t : DocText) (cells : List XmlElem)
    (hfr : t.fragments = some cells)
    (hsw : t.startsWithRootTag = false)
    (hmx : t.hasMxCellToken = true)
    (hparse : t.parse = none ∨ ∃ c, t.parse = some c ∧ c.tag = "mxCell")
    (hnd : (truthyIds (iterTagF "mxCell" cells)).Nodup)
    (h0 : "0" ∉ truthyIds (iterTagF "mxCell" cells))
    (h1 : "1" ∉ truthyIds (iterTagF "mxCell" cells)) :
    (validate_and_fix t).2.1 = true ∧
    (validate ((validate_and_fix t).1).parse true).1 = true := by
  have hinv : (validate t.parse false).1 = false := by
    rcases hparse with hnone | ⟨c, hpc, hct⟩
    · rw [hnone]
      rfl
    · rw [hpc]
      have hmxf : checkMxfileStructure c = [mxfileElementFinding c.tag] := by
        simp only [checkMxfileStructure]
        rw [if_pos (by rw [hct]; simp)]
      show (!((checkMxfileStructure c ++ checkMxcellElements c ++
        checkIdUniqueness c ++ checkStyles c).any
        fun r => r.level == ValidationLevel.error)) = false
      rw [Bool.not_eq_false', List.any_eq_true]
      refine ⟨mxfileElementFinding c.tag, ?_, rfl⟩
      refine List.mem_append_left _ (List.mem_append_left _ (List.mem_append_left _ ?_))
      rw [hmxf]
      exact List.mem_singleton.mpr rfl
  have hfix : validate_and_fix t = (wrapText t, true, "添加了 root 元素和基礎 mxCell") := by
    simp [validate_and_fix, hinv, hsw, hmx]
  have hwp : (wrapText t).parse =
      some (XmlElem.mk "root" [] (reservedCell0 :: reservedCell1 :: cells)) := by
    simp [wrapText, hfr]
  have hcrs : checkRootStructure
      (XmlElem.mk "root" [] (reservedCell0 :: reservedCell1 :: cells)) = [] := rfl
  have hstep : dupScan (reservedCell0 :: reservedCell1 :: iterTagF "mxCell" cells) [] =
      dupScan (iterTagF "mxCell" cells) ["0", "1"] := rfl
  have hit : iterTag "mxCell" (XmlElem.mk "root" [] (reservedCell0 :: reservedCell1 :: cells)) =
      reservedCell0 :: reservedCell1 :: iterTagF "mxCell" cells := rfl
  have hdup : checkIdUniqueness
      (XmlElem.mk "root" [] (reservedCell0 :: reservedCell1 :: cells)) = [] := by
    unfold checkIdUniqueness
    rw [hit, hstep]
    refine dupScan_eq_nil _ _ hnd ?_
    intro s hs hmem
    rcases List.mem_cons.mp hmem with h' | h'
    · exact h0 (h' ▸ hs)
    · rw [List.mem_singleton] at h'
      exact h1 (h' ▸ hs)
  refine ⟨by rw [hfix], ?_⟩
  rw [hfix]
  show (validate (wrapText t).parse true).1 = true
  rw [hwp]
  show (!((checkRootStructure (XmlElem.mk "root" [] (reservedCell0 :: reservedCell1 :: cells)) ++
    checkMxcellElements (XmlElem.mk "root" [] (reservedCell0 :: reservedCell1 :: cells)) ++
    checkIdUniqueness (XmlElem.mk "root" [] (reservedCell0 :: reservedCell1 :: cells)) ++
    checkStyles (XmlElem.mk "root" [] (reservedCell0 :: reservedCell1 :: cells))).any
    fun r => r.level == ValidationLevel.error)) = true
  rw [Bool.not_eq_true', List.any_append, List.any_append, List.any_append, hcrs, hdup]
  simp [any_error_eq_false (checkMxcellElements_warning _),
    any_error_eq_false (checkStyles_warning _)]

/-- A bare two-cell fragment list (a node and an edge) with no wrapper: the
text parses as element content but not as a single document. -/
def bareCells : List XmlElem :=
  [.mk "mxCell" [("id", "2"), ("value", "Start"), ("vertex", "1"), ("parent", "1")]
     [.mk "mxGeometry" [("x", "100"), ("y", "100")] []],
   .mk "mxCell" [("id", "3"), ("edge", "1"), ("parent", "1"), ("source", "2"), ("target", "2")]
     [.mk "mxGeometry" [("relative", "1")] []]]

/-- The text holding `bareCells`: two top-level fragments, so `ET.fromstring`
raises; it does not start with `<root>` and contains `<mxCell`. -/
def bareCellsText : DocText := ⟨none, false, true, some bareCells⟩

theorem c3_repair_wrapper_validates_witness :
    (bareCellsText.fragments = some bareCells ∧
      bareCellsText.startsWithRootTag = false ∧
      bareCellsText.hasMxCellToken = true ∧
      (bareCellsText.parse = none ∨ ∃ c, bareCellsText.parse = some c ∧ c.tag = "mxCell") ∧
      (truthyIds (iterTagF "mxCell" bareCells)).Nodup ∧
      "0" ∉ truthyIds (iterTagF "mxCell" bareCells) ∧
      "1" ∉ truthyIds (iterTagF "mxCell" bareCells)) ∧
    ((validate_and_fix bareCellsText).2.1 = true ∧
      (validate ((validate_and_fix bareCellsText).1).parse true).1 = true) :=
  ⟨⟨rfl, rfl, rfl, Or.inl rfl, by decide, by decide, by decide⟩,
    c3_repair_wrapper_validates bareCellsText bareCells rfl rfl rfl (Or.inl rfl)
      (by decide) (by decide) (by decide)⟩

theorem pollLoop_le (client : SurfaceClient) (numOps : Nat) :
    ∀ (fuel i : Nat), (pollLoop client numOps i fuel).2 ≤ fuel := by
  intro fuel
  induction fuel with
  | zero => intro i; simp [pollLoop]
  | succ n ih =>
    intro i
    cases hres : client.getApplyResult i with
    | error e => simp [pollLoop, hres]
    | ok r =>
      cases hstep : pollStep numOps r with
      | getFailed e => simp [pollLoop, hres, hstep]
      | finish a c => simp [pollLoop, hres, hstep]
      | again =>
        simp only [pollLoop, hres, hstep]
        have := ih (i + 1)
        omega

theorem pollLoop_timedOut_iff (client : SurfaceClient) (numOps : Nat) :
    ∀ (fuel i : Nat), (pollLoop client numOps i fuel).1 = ToolOutcome.timedOut ↔
      ∀ j, i ≤ j → j < i + fuel →
        ∃ r, client.getApplyResult j = Except.ok r ∧ pollStep numOps r = PollStep.again := by
  intro fuel
  induction fuel with
  | zero =>
    intro i
    constructor
    · intro _ j hij hji
      omega
    · intro _
      rfl
  | succ n ih =>
    intro i
    cases hres : client.getApplyResult i with
    | error e =>
      simp only [pollLoop, hres]
      constructor
      · intro h
        exact absurd h (by simp)
      · intro hall
        obtain ⟨r, hr, _⟩ := hall i (Nat.le_refl i) (by omega)
        rw [hres] at hr
        cases hr
    | ok r =>
      cases hstep : pollStep numOps r with
      | getFailed e =>
        simp only [pollLoop, hres, hstep]
        constructor
        · intro h
          exact absurd h (by simp)
        · intro hall
          obtain ⟨r', hr', hstep'⟩ := hall i (Nat.le_refl i) (by omega)
          rw [hres] at hr'
          injection hr' with hrr
          rw [← hrr, hstep] at hstep'
          cases hstep'
      | finish a c =>
        simp only [pollLoop, hres, hstep]
        constructor
        · intro h
          exact absurd h (by simp)
        · intro hall
          obtain ⟨r', hr', hstep'⟩ := hall i (Nat.le_refl i) (by omega)
          rw [hres] at hr'
          injection hr' with hrr
          rw [← hrr, hstep] at hstep'
          cases hstep'
      | again =>
        simp only [pollLoop, hres, hstep]
        rw [ih (i + 1)]
        constructor
        · intro hall j hij hji
          rcases Nat.eq_or_lt_of_le hij with heq | hlt
          · subst heq
            exact ⟨r, hres, hstep⟩
          · exact hall j hlt (by omega)
        · intro hall j hij hji
          exact hall j (by omega) (by omega)

/-- C8: After submitting a non-empty operation batch whose submission is
acknowledged, the apply coordinator polls on a bounded schedule — at most 20
attempts, each preceded by exactly one 0.5-second sleep (the poll count *is*
the sleep count in `pollLoop`) — and the advisory timed-out outcome is
returned exactly when none of the 20 polls completes or fails; `timedOut` is
a distinct outcome from the error-string and failure outcomes (not an error,
and nothing is cancelled — the loop merely stops polling). -/
theorem c8_apply_poll_bounded {α : Type} (client : SurfaceClient)
    (ops : List α) (pu : Bool)
    (hne : ops ≠ [])
    (hs : client.applyOperations = Except.ok none) :
    (apply_diagram_changes_impl client ops pu).2 ≤ 20 ∧
    ((apply_diagram_changes_impl client ops pu).1 = ToolOutcome.timedOut ↔
      ∀ j, j < 20 → ∃ r, client.getApplyResult j = Except.ok r ∧
        pollStep ops.length r = PollStep.again) ∧
    (∀ e, ToolOutcome.timedOut ≠ ToolOutcome.errorString e ∧
      ToolOutcome.timedOut ≠ ToolOutcome.responseError e) := by
  have hemp : ops.isEmpty = false := by
    cases ops
    · exact absurd rfl hne
    · rfl
  have happ : apply_diagram_changes_impl client ops pu = pollLoop client ops.length 0 20 := by
    simp [apply_diagram_changes_impl, hemp, hs]
  refine ⟨?_, ?_, ?_⟩
  · rw [happ]
    exact pollLoop_le client ops.length 20 0
  · rw [happ, pollLoop_timedOut_iff]
    constructor
    · intro hall j hj
      exact hall j (Nat.zero_le j) (by omega)
    · intro hall j _ hj
      exact hall j (by omega)
  · intro e
    exact ⟨by simp, by simp⟩

/-- A surface client that acknowledges the submission and always answers
`pending` to polls. -/
def pendingSurface : SurfaceClient :=
  ⟨Except.ok none, fun _ => Except.ok ⟨none, true, false, none⟩,
   Except.ok none, Except.ok (none, ""), fun _ => Except.ok none⟩

theorem c8_apply_poll_bounded_witness :
    (([()] : List Unit) ≠ [] ∧ pendingSurface.applyOperations = Except.ok none) ∧
    ((apply_diagram_changes_impl pendingSurface [()] true).2 ≤ 20 ∧
      ((apply_diagram_changes_impl pendingSurface [()] true).1 = ToolOutcome.timedOut ↔
        ∀ j, j < 20 → ∃ r, pendingSurface.getApplyResult j = Except.ok r ∧
          pollStep ([()] : List Unit).length r = PollStep.again) ∧
      (∀ e, ToolOutcome.timedOut ≠ ToolOutcome.errorString e ∧
        ToolOutcome.timedOut ≠ ToolOutcome.responseError e)) :=
  ⟨⟨by decide, rfl⟩, c8_apply_poll_bounded pendingSurface [()] true (by decide) rfl⟩

/-- C9: The `WebClient` class defines none of `get_diagram_changes`,
`apply_diagram_operations`, `get_apply_result`, `sync_diff_state`; hence
every diff-tool entry point that must reach the surface through them returns
the `except`-branch error string: `get_diagram_changes_impl` always,
`apply_diagram_changes_impl` on every non-empty batch — with zero polls, so
no batch is ever forwarded — and `sync_diagram_state_impl` whenever the
content fetch succeeds; the `synced` outcome (the baseline replacement) is
never reached for any surface behaviour. -/
theorem c9_missing_surface_methods :
    ("get_diagram_changes" ∉ webClientMethods ∧
      "apply_diagram_operations" ∉ webClientMethods ∧
      "get_apply_result" ∉ webClientMethods ∧
      "sync_diff_state" ∉ webClientMethods) ∧
    (∀ net, ∃ e, get_diagram_changes_impl (realWebClient net) = ToolOutcome.errorString e) ∧
    (∀ (α : Type) (net : Option String × String) (ops : List α) (pu : Bool), ops ≠ [] →
      ∃ e, apply_diagram_changes_impl (realWebClient net) ops pu =
        (ToolOutcome.errorString e, 0)) ∧
    (∀ net : Option String × String,
      (net.1 = none →
        ∃ e, sync_diagram_state_impl (realWebClient net) = ToolOutcome.errorString e) ∧
      sync_diagram_state_impl (realWebClient net) ≠ ToolOutcome.synced) := by
  refine ⟨⟨by decide, by decide, by decide, by decide⟩, ?_, ?_, ?_⟩
  · intro net
    exact ⟨_, rfl⟩
  · intro α net ops pu hne
    cases ops with
    | nil => exact absurd rfl hne
    | cons x xs => exact ⟨_, rfl⟩
  · intro net
    obtain ⟨e1, xml⟩ := net
    constructor
    · intro hnone
      cases hnone
      exact ⟨_, rfl⟩
    · cases e1 with
      | none => exact fun h => ToolOutcome.noConfusion h
      | some e => exact fun h => ToolOutcome.noConfusion h

theorem c9_missing_surface_methods_witness :
    (([()] : List Unit) ≠ []) ∧
    (∃ e, apply_diagram_changes_impl (realWebClient (none, "")) ([()] : List Unit) true =
      (ToolOutcome.errorString e, 0)) ∧
    (∃ e, get_diagram_changes_impl (realWebClient (none, "")) = ToolOutcome.errorString e) ∧
    sync_diagram_state_impl (realWebClient (none, "")) ≠ ToolOutcome.synced :=
  ⟨by decide,
   c9_missing_surface_methods.2.2.1 Unit (none, "") [()] true (by decide),
   c9_missing_surface_methods.2.1 (none, ""),
   (c9_missing_surface_methods.2.2.2 (none, "")).2⟩
